import Mathlib

/-!
Verification development for the QR-Checkin repository.

The definitions below are a shallow embedding of the registration and
attendance-provisioning subsystem:

- src/lib/qrcode.ts: metadata encoding (JSON.stringify + base64),
  decoding (base64 + JSON.parse), field validation, and the PNG-buffer
  fallback of generateQRCodeBuffer;
- src/lib/events.ts (bundled in src/lib/types.ts): registerForEvent,
  isUserRegistered, deleteEvent, and the derived attendance-table name;
- src/app/api/register-event/route.ts: the POST handler;
- the create_event_attendance_table stored procedure (CREATE TABLE IF
  NOT EXISTS with a UNIQUE email column).

External library calls are modelled as follows: Buffer base64 encoding
and decoding are implemented over byte lists; JS strings are modelled as
Lean strings (sequences of Unicode scalar values) with UTF-8 as the byte
encoding used by Buffer.from; JSON.stringify is implemented for the flat
string-field objects this code serializes, with the exact escaping rules
of the JS builtin; JSON.parse is implemented for the corresponding
fragment (flat objects with string values, no interior whitespace),
which covers every string this code produces; the Supabase/PostgREST
storage layer is an explicit state (events table plus named attendance
tables) in which the documented error codes 42P01 (undefined table) and
23505 (unique violation) arise deterministically from that state, and
other transient storage or mail failures are injected as explicit oracle
parameters.
-/

/-! ## JS character primitives -/

/-- Lowercasing as performed by String.prototype.toLowerCase on the
code points relevant here (ASCII letters; all other characters are
either already lowercase or are replaced by the sanitizer below). -/
def jsToLower (c : Char) : Char :=
  if 65 ≤ c.toNat ∧ c.toNat ≤ 90 then Char.ofNat (c.toNat + 32) else c

/-- One step of title.toLowerCase().replace(/[^a-z0-9]/g, the underscore):
lowercase the character, keep it when it lands in [a-z0-9], otherwise
replace it by an underscore. -/
def sanitizeChar (c : Char) : Char :=
  let l := jsToLower c
  if (97 ≤ l.toNat ∧ l.toNat ≤ 122) ∨ (48 ≤ l.toNat ∧ l.toNat ≤ 57) then l
  else Char.ofNat 95

/-- sanitizedTitle from the source: eventTitle.toLowerCase().replace
(/[^a-z0-9]/g, underscore), applied character by character. -/
def sanitizedTitle (title : String) : String :=
  String.mk (title.data.map sanitizeChar)

/-- The derived attendance table name, computed identically at every
use site in the source: event_ + sanitizedTitle + underscore + id. -/
def tableNameFor (title eventId : String) : String :=
  "event_" ++ sanitizedTitle title ++ "_" ++ eventId

/-- Modelled from the spec: the spec describes the derived name as
falling back to the literal event when sanitization yields an empty
string. This definition follows the spec wording for comparison with
tableNameFor, which is translated from the source. -/
def tableNameForSpec (title eventId : String) : String :=
  "event_" ++ (if sanitizedTitle title = "" then "event" else sanitizedTitle title)
    ++ "_" ++ eventId

/-! ## Base64 (Buffer.toString base64 / Buffer.from base64) -/

/-- The standard base64 alphabet character for a 6-bit group. -/
def b64Char (n : Nat) : Char :=
  if n < 26 then Char.ofNat (65 + n)
  else if n < 52 then Char.ofNat (97 + (n - 26))
  else if n < 62 then Char.ofNat (48 + (n - 52))
  else if n = 62 then Char.ofNat 43
  else Char.ofNat 47

/-- The 6-bit value of a base64 alphabet character, none otherwise. -/
def b64Val (c : Char) : Option Nat :=
  if 65 ≤ c.toNat ∧ c.toNat ≤ 90 then some (c.toNat - 65)
  else if 97 ≤ c.toNat ∧ c.toNat ≤ 122 then some (c.toNat - 97 + 26)
  else if 48 ≤ c.toNat ∧ c.toNat ≤ 57 then some (c.toNat - 48 + 52)
  else if c.toNat = 43 then some 62
  else if c.toNat = 47 then some 63
  else none

/-- The padding character. -/
def padChar : Char := Char.ofNat 61

/-- Standard padded base64 of a byte list, as produced by
Buffer.toString with the base64 encoding. -/
def b64Encode : List Nat → List Char
  | [] => []
  | [a] => [b64Char (a / 4), b64Char (a % 4 * 16), padChar, padChar]
  | [a, b] => [b64Char (a / 4), b64Char (a % 4 * 16 + b / 16), b64Char (b % 16 * 4), padChar]
  | a :: b :: c :: rest =>
      b64Char (a / 4) :: b64Char (a % 4 * 16 + b / 16) ::
      b64Char (b % 16 * 4 + c / 64) :: b64Char (c % 64) :: b64Encode rest

/-- Base64 decoding of a padded base64 text back to its bytes. -/
def b64Decode : List Char → Option (List Nat)
  | [] => some []
  | c0 :: c1 :: c2 :: c3 :: rest =>
    match b64Val c0, b64Val c1 with
    | some a, some b =>
      if c2 = padChar then
        if c3 = padChar ∧ rest = [] ∧ b % 16 = 0 then some [a * 4 + b / 16] else none
      else
        match b64Val c2 with
        | some c =>
          if c3 = padChar then
            if rest = [] ∧ c % 4 = 0 then some [a * 4 + b / 16, b % 16 * 16 + c / 4]
            else none
          else
            match b64Val c3 with
            | some d =>
              (b64Decode rest).map
                (fun tl => (a * 4 + b / 16) :: (b % 16 * 16 + c / 4) :: (c % 4 * 64 + d) :: tl)
            | none => none
        | none => none
    | _, _ => none
  | _ => none

theorem b64Val_b64Char : ∀ n < 64, b64Val (b64Char n) = some n := by decide

theorem b64Char_ne_pad : ∀ n < 64, b64Char n ≠ padChar := by decide

/-- Decoding inverts encoding on byte lists. -/
theorem b64Decode_b64Encode (bs : List Nat) (h : ∀ b ∈ bs, b < 256) :
    b64Decode (b64Encode bs) = some bs := by
  induction bs using b64Encode.induct with
  | case1 => rfl
  | case2 a =>
      have ha : a < 256 := h a (by simp)
      have e1 : a / 4 * 4 + a % 4 * 16 / 16 = a := by omega
      have e2 : a % 4 * 16 % 16 = 0 := by omega
      simp [b64Encode, b64Decode, b64Val_b64Char (a / 4) (by omega),
            b64Val_b64Char (a % 4 * 16) (by omega), e1, e2]
      omega
  | case3 a b =>
      have ha : a < 256 := h a (by simp)
      have hb : b < 256 := h b (by simp)
      have h1 : a / 4 * 4 + (a % 4 * 16 + b / 16) / 16 = a := by omega
      have h2 : (a % 4 * 16 + b / 16) % 16 * 16 + b % 16 * 4 / 4 = b := by omega
      have h3 : b % 16 * 4 % 4 = 0 := by omega
      simp [b64Encode, b64Decode, b64Val_b64Char (a / 4) (by omega),
            b64Val_b64Char (a % 4 * 16 + b / 16) (by omega),
            b64Val_b64Char (b % 16 * 4) (by omega),
            b64Char_ne_pad (b % 16 * 4) (by omega), h1, h2, h3]
      omega
  | case4 a b c rest ih =>
      have ha : a < 256 := h a (by simp)
      have hb : b < 256 := h b (by simp)
      have hc : c < 256 := h c (by simp)
      have hrest : ∀ x ∈ rest, x < 256 := fun x hx => h x (by simp [hx])
      have h1 : a / 4 * 4 + (a % 4 * 16 + b / 16) / 16 = a := by omega
      have h2 : (a % 4 * 16 + b / 16) % 16 * 16 + (b % 16 * 4 + c / 64) / 4 = b := by omega
      have h3 : (b % 16 * 4 + c / 64) % 4 * 64 + c % 64 = c := by omega
      simp [b64Encode, b64Decode, b64Val_b64Char (a / 4) (by omega),
            b64Val_b64Char (a % 4 * 16 + b / 16) (by omega),
            b64Val_b64Char (b % 16 * 4 + c / 64) (by omega),
            b64Val_b64Char (c % 64) (by omega),
            b64Char_ne_pad (b % 16 * 4 + c / 64) (by omega),
            b64Char_ne_pad (c % 64) (by omega), ih hrest, h1, h2, h3]

/-! ## UTF-8 (the byte encoding used by Buffer.from on a JS string) -/

/-- The UTF-8 bytes of a single Unicode scalar value. -/
def utf8EncBytes (n : Nat) : List Nat :=
  if n < 0x80 then [n]
  else if n < 0x800 then [0xC0 + n / 64, 0x80 + n % 64]
  else if n < 0x10000 then [0xE0 + n / 4096, 0x80 + n / 64 % 64, 0x80 + n % 64]
  else [0xF0 + n / 262144, 0x80 + n / 4096 % 64, 0x80 + n / 64 % 64, 0x80 + n % 64]

/-- The UTF-8 bytes of one character. -/
def utf8EncodeChar (c : Char) : List Nat := utf8EncBytes c.toNat

/-- The UTF-8 bytes of a character list. -/
def utf8Encode : List Char → List Nat
  | [] => []
  | c :: cs => utf8EncodeChar c ++ utf8Encode cs

/-- Scalar value of a two-byte UTF-8 sequence, rejecting bad
continuation bytes and overlong forms. -/
def utf8Dec2 (b0 b1 : Nat) : Option Nat :=
  if 0x80 ≤ b1 ∧ b1 < 0xC0 then
    if 0x80 ≤ (b0 - 0xC0) * 64 + (b1 - 0x80) then some ((b0 - 0xC0) * 64 + (b1 - 0x80))
    else none
  else none

/-- Scalar value of a three-byte UTF-8 sequence, rejecting bad
continuation bytes, overlong forms and surrogates. -/
def utf8Dec3 (b0 b1 b2 : Nat) : Option Nat :=
  if (0x80 ≤ b1 ∧ b1 < 0xC0) ∧ (0x80 ≤ b2 ∧ b2 < 0xC0) then
    if 0x800 ≤ (b0 - 0xE0) * 4096 + (b1 - 0x80) * 64 + (b2 - 0x80) ∧
        ((b0 - 0xE0) * 4096 + (b1 - 0x80) * 64 + (b2 - 0x80) < 0xD800 ∨
          0xE000 ≤ (b0 - 0xE0) * 4096 + (b1 - 0x80) * 64 + (b2 - 0x80)) then
      some ((b0 - 0xE0) * 4096 + (b1 - 0x80) * 64 + (b2 - 0x80))
    else none
  else none

/-- Scalar value of a four-byte UTF-8 sequence, rejecting bad
continuation bytes, overlong forms and out-of-range values. -/
def utf8Dec4 (b0 b1 b2 b3 : Nat) : Option Nat :=
  if (0x80 ≤ b1 ∧ b1 < 0xC0) ∧ (0x80 ≤ b2 ∧ b2 < 0xC0) ∧ (0x80 ≤ b3 ∧ b3 < 0xC0) then
    if 0x10000 ≤ (b0 - 0xF0) * 262144 + (b1 - 0x80) * 4096 + (b2 - 0x80) * 64 + (b3 - 0x80) ∧
        (b0 - 0xF0) * 262144 + (b1 - 0x80) * 4096 + (b2 - 0x80) * 64 + (b3 - 0x80) < 0x110000 then
      some ((b0 - 0xF0) * 262144 + (b1 - 0x80) * 4096 + (b2 - 0x80) * 64 + (b3 - 0x80))
    else none
  else none

/-- Decode one UTF-8 sequence from a lead byte and the remaining bytes,
returning the scalar value and the bytes after the sequence. -/
def utf8DecodeOne (b0 : Nat) (rest : List Nat) : Option (Nat × List Nat) :=
  if b0 < 0x80 then some (b0, rest)
  else if b0 < 0xC0 then none
  else if b0 < 0xE0 then
    match rest with
    | b1 :: r => (utf8Dec2 b0 b1).map (fun n => (n, r))
    | [] => none
  else if b0 < 0xF0 then
    match rest with
    | b1 :: b2 :: r => (utf8Dec3 b0 b1 b2).map (fun n => (n, r))
    | _ => none
  else if b0 < 0xF8 then
    match rest with
    | b1 :: b2 :: b3 :: r => (utf8Dec4 b0 b1 b2 b3).map (fun n => (n, r))
    | _ => none
  else none

/-- Decoding one sequence never lengthens the remaining byte list. -/
theorem utf8DecodeOne_length (b0 : Nat) (rest : List Nat) (n : Nat) (r : List Nat)
    (h : utf8DecodeOne b0 rest = some (n, r)) : r.length ≤ rest.length := by
  unfold utf8DecodeOne at h
  split_ifs at h
  · cases h; simp
  · cases rest with
    | nil => cases h
    | cons b1 r1 =>
        rcases hd : utf8Dec2 b0 b1 with _ | m
        all_goals simp [hd] at h
        try obtain ⟨hmn, hrr⟩ := h
        try subst hrr
        try simp
        try omega
  · cases rest with
    | nil => cases h
    | cons b1 r1 =>
        cases r1 with
        | nil => cases h
        | cons b2 r2 =>
            rcases hd : utf8Dec3 b0 b1 b2 with _ | m
            all_goals simp [hd] at h
            try obtain ⟨hmn, hrr⟩ := h
            try subst hrr
            try simp
            try omega
  · cases rest with
    | nil => cases h
    | cons b1 r1 =>
        cases r1 with
        | nil => cases h
        | cons b2 r2 =>
            cases r2 with
            | nil => cases h
            | cons b3 r3 =>
                rcases hd : utf8Dec4 b0 b1 b2 b3 with _ | m
                all_goals simp [hd] at h
                try obtain ⟨hmn, hrr⟩ := h
                try subst hrr
                try simp
                try omega

/-- UTF-8 decoding of a byte list back to characters; fails on stray
continuation bytes, truncated sequences, overlong forms, surrogate code
points and out-of-range values. -/
def utf8Decode : List Nat → Option (List Char)
  | [] => some []
  | b0 :: rest =>
    match h : utf8DecodeOne b0 rest with
    | some (n, r) => (utf8Decode r).map (fun cs => Char.ofNat n :: cs)
    | none => none
termination_by l => l.length
decreasing_by
  have := utf8DecodeOne_length b0 rest n r h
  simp only [List.length_cons]
  omega

/-- A character code point is below the surrogate range or above it and
below 0x110000. -/
theorem char_toNat_valid (c : Char) :
    c.toNat < 0xD800 ∨ (0xE000 ≤ c.toNat ∧ c.toNat < 0x110000) := by
  have h := c.valid
  show c.val.toNat < 0xD800 ∨ (0xE000 ≤ c.val.toNat ∧ c.val.toNat < 0x110000)
  rcases h with h | h
  · left; exact h
  · right; exact h

/-- Every UTF-8 byte of an encoded scalar is an octet. -/
theorem utf8EncBytes_lt (n : Nat) (hn : n < 0x110000) :
    ∀ b ∈ utf8EncBytes n, b < 256 := by
  intro b hb
  unfold utf8EncBytes at hb
  split at hb
  · simp at hb; omega
  · split at hb
    · simp at hb; rcases hb with hb | hb <;> omega
    · split at hb
      · simp at hb; rcases hb with hb | hb | hb <;> omega
      · simp at hb; rcases hb with hb | hb | hb | hb <;> omega

/-- Decoding one sequence inverts encoding one scalar, for every valid
scalar and every continuation of the byte stream. -/
theorem utf8DecodeOne_encBytes (n : Nat)
    (hval : n < 0xD800 ∨ (0xE000 ≤ n ∧ n < 0x110000)) (bs : List Nat) :
    ∃ b0 tl, utf8EncBytes n = b0 :: tl ∧ utf8DecodeOne b0 (tl ++ bs) = some (n, bs) := by
  unfold utf8EncBytes
  by_cases h1 : n < 0x80
  · rw [if_pos h1]
    refine ⟨n, [], rfl, ?_⟩
    unfold utf8DecodeOne
    rw [if_pos h1]
    simp
  · rw [if_neg h1]
    by_cases h2 : n < 0x800
    · rw [if_pos h2]
      refine ⟨0xC0 + n / 64, [0x80 + n % 64], rfl, ?_⟩
      unfold utf8DecodeOne
      rw [if_neg (by omega), if_neg (by omega), if_pos (by omega)]
      show (utf8Dec2 (0xC0 + n / 64) (0x80 + n % 64)).map _ = _
      unfold utf8Dec2
      rw [if_pos (by omega), if_pos (by omega)]
      simp <;> omega
    · rw [if_neg h2]
      by_cases h3 : n < 0x10000
      · rw [if_pos h3]
        refine ⟨0xE0 + n / 4096, [0x80 + n / 64 % 64, 0x80 + n % 64], rfl, ?_⟩
        unfold utf8DecodeOne
        rw [if_neg (by omega), if_neg (by omega), if_neg (by omega), if_pos (by omega)]
        show (utf8Dec3 (0xE0 + n / 4096) (0x80 + n / 64 % 64) (0x80 + n % 64)).map _ = _
        unfold utf8Dec3
        rw [if_pos (by omega), if_pos (by omega)]
        simp <;> omega
      · rw [if_neg h3]
        refine ⟨0xF0 + n / 262144, [0x80 + n / 4096 % 64, 0x80 + n / 64 % 64, 0x80 + n % 64],
          rfl, ?_⟩
        unfold utf8DecodeOne
        rw [if_neg (by omega), if_neg (by omega), if_neg (by omega), if_neg (by omega),
            if_pos (by omega)]
        show (utf8Dec4 (0xF0 + n / 262144) (0x80 + n / 4096 % 64) (0x80 + n / 64 % 64)
          (0x80 + n % 64)).map _ = _
        unfold utf8Dec4
        rw [if_pos (by omega), if_pos (by omega)]
        simp <;> omega

/-- Decoding inverts encoding on character lists. -/
theorem utf8Decode_utf8Encode (cs : List Char) :
    utf8Decode (utf8Encode cs) = some cs := by
  induction cs with
  | nil => simp [utf8Encode, utf8Decode]
  | cons c cs ih =>
      show utf8Decode (utf8EncodeChar c ++ utf8Encode cs) = _
      obtain ⟨b0, tl, henc, hdec⟩ :=
        utf8DecodeOne_encBytes c.toNat (char_toNat_valid c) (utf8Encode cs)
      rw [utf8EncodeChar, henc]
      show utf8Decode (b0 :: (tl ++ utf8Encode cs)) = _
      rw [utf8Decode]
      split
      · rename_i n r heq
        rw [hdec] at heq
        injection heq with heq2
        have hn : n = c.toNat := congrArg Prod.fst heq2.symm
        have hr : r = utf8Encode cs := congrArg Prod.snd heq2.symm
        subst hn; subst hr
        rw [ih]
        simp [Char.ofNat_toNat]
      · rename_i heq
        rw [hdec] at heq
        cases heq

/-! ## JSON (the fragment produced and consumed by this code) -/

/-- The double-quote character. -/
def quoteChar : Char := Char.ofNat 34

/-- The backslash character. -/
def backslashChar : Char := Char.ofNat 92

/-- The forward-slash character. -/
def slashChar : Char := Char.ofNat 47

/-- The opening-brace character. -/
def lbraceChar : Char := Char.ofNat 123

/-- The closing-brace character. -/
def rbraceChar : Char := Char.ofNat 125

/-- The colon character. -/
def colonChar : Char := Char.ofNat 58

/-- The comma character. -/
def commaChar : Char := Char.ofNat 44

/-- Lowercase hexadecimal digit, as emitted by JSON.stringify in its
control-character escapes. -/
def hexDig (n : Nat) : Char := if n < 10 then Char.ofNat (48 + n) else Char.ofNat (87 + n)

/-- Value of a hexadecimal digit in any case, none otherwise. -/
def parseHexDigit (c : Char) : Option Nat :=
  if 48 ≤ c.toNat ∧ c.toNat ≤ 57 then some (c.toNat - 48)
  else if 97 ≤ c.toNat ∧ c.toNat ≤ 102 then some (c.toNat - 87)
  else if 65 ≤ c.toNat ∧ c.toNat ≤ 70 then some (c.toNat - 55)
  else none

/-- JSON.stringify escaping of one string character: double quote and
backslash are escaped, the five named control characters use their short
escapes, other control characters use a lowercase unicode escape, and
every other character is emitted unchanged. -/
def jsonEscapeChar (c : Char) : List Char :=
  if c = quoteChar then [backslashChar, quoteChar]
  else if c = backslashChar then [backslashChar, backslashChar]
  else if c.toNat = 8 then [backslashChar, Char.ofNat 98]
  else if c.toNat = 9 then [backslashChar, Char.ofNat 116]
  else if c.toNat = 10 then [backslashChar, Char.ofNat 110]
  else if c.toNat = 12 then [backslashChar, Char.ofNat 102]
  else if c.toNat = 13 then [backslashChar, Char.ofNat 114]
  else if c.toNat < 32 then
    [backslashChar, Char.ofNat 117, Char.ofNat 48, Char.ofNat 48,
      hexDig (c.toNat / 16), hexDig (c.toNat % 16)]
  else [c]

/-- JSON.stringify escaping of a character list. -/
def jsonEscape : List Char → List Char
  | [] => []
  | c :: cs => jsonEscapeChar c ++ jsonEscape cs

/-- A JSON string literal: quote, escaped content, quote. -/
def jsonQuote (s : String) : List Char := quoteChar :: (jsonEscape s.data ++ [quoteChar])

/-- A JSON value of the decoded metadata object. The code only ever
serializes flat objects whose fields are strings; the other scalar
constructors model what JSON.parse can hand to validateQRData. -/
inductive JVal where
  | str (s : String)
  | num (n : Int)
  | bool (b : Bool)
  | null
deriving Repr, DecidableEq

/-- Parse one escape sequence, positioned just after a backslash. -/
def parseEscape (l : List Char) : Option (Char × List Char) :=
  match l with
  | [] => none
  | e :: rest =>
    if e = quoteChar then some (quoteChar, rest)
    else if e = backslashChar then some (backslashChar, rest)
    else if e = slashChar then some (slashChar, rest)
    else if e = Char.ofNat 98 then some (Char.ofNat 8, rest)
    else if e = Char.ofNat 102 then some (Char.ofNat 12, rest)
    else if e = Char.ofNat 110 then some (Char.ofNat 10, rest)
    else if e = Char.ofNat 114 then some (Char.ofNat 13, rest)
    else if e = Char.ofNat 116 then some (Char.ofNat 9, rest)
    else if e = Char.ofNat 117 then
      match rest with
      | h1 :: h2 :: h3 :: h4 :: rest2 =>
          (parseHexDigit h1).bind (fun v1 =>
          (parseHexDigit h2).bind (fun v2 =>
          (parseHexDigit h3).bind (fun v3 =>
          (parseHexDigit h4).bind (fun v4 =>
            if v1 * 4096 + v2 * 256 + v3 * 16 + v4 < 0xD800 ∨
                0xE000 ≤ v1 * 4096 + v2 * 256 + v3 * 16 + v4 then
              some (Char.ofNat (v1 * 4096 + v2 * 256 + v3 * 16 + v4), rest2)
            else none))))
      | _ => none
    else none

/-- Body of a JSON string literal, read until the closing quote, with a
step-count fuel; raw control characters are rejected as JSON.parse
does. -/
def parseJStringBody : Nat → List Char → Option (List Char × List Char)
  | _, [] => none
  | 0, _ :: _ => none
  | fuel + 1, c :: rest =>
    if c = quoteChar then some ([], rest)
    else if c = backslashChar then
      match parseEscape rest with
      | some (e, r) => (parseJStringBody fuel r).map (fun p => (e :: p.1, p.2))
      | none => none
    else if c.toNat < 32 then none
    else (parseJStringBody fuel rest).map (fun p => (c :: p.1, p.2))

/-- Parse a JSON string literal from its opening quote. -/
def parseJString (l : List Char) : Option (String × List Char) :=
  match l with
  | c :: rest =>
      if c = quoteChar then
        (parseJStringBody rest.length rest).map (fun p => (String.mk p.1, p.2))
      else none
  | [] => none

theorem parseHexDigit_hexDig : ∀ k < 16, parseHexDigit (hexDig k) = some k := by decide

/-- Parsing a lowercase unicode escape of a control character recovers
that character. -/
theorem parseEscape_u (n : Nat) (hn : n < 32) (tail : List Char) :
    parseEscape (Char.ofNat 117 :: Char.ofNat 48 :: Char.ofNat 48 ::
      hexDig (n / 16) :: hexDig (n % 16) :: tail) = some (Char.ofNat n, tail) := by
  have hd1 := parseHexDigit_hexDig (n / 16) (by omega)
  have hd2 := parseHexDigit_hexDig (n % 16) (by omega)
  have h0 : parseHexDigit (Char.ofNat 48) = some 0 := by decide
  have step : parseEscape (Char.ofNat 117 :: Char.ofNat 48 :: Char.ofNat 48 ::
      hexDig (n / 16) :: hexDig (n % 16) :: tail) =
      (parseHexDigit (Char.ofNat 48)).bind (fun v1 =>
      (parseHexDigit (Char.ofNat 48)).bind (fun v2 =>
      (parseHexDigit (hexDig (n / 16))).bind (fun v3 =>
      (parseHexDigit (hexDig (n % 16))).bind (fun v4 =>
        if v1 * 4096 + v2 * 256 + v3 * 16 + v4 < 0xD800 ∨
            0xE000 ≤ v1 * 4096 + v2 * 256 + v3 * 16 + v4 then
          some (Char.ofNat (v1 * 4096 + v2 * 256 + v3 * 16 + v4), tail)
        else none)))) := rfl
  rw [step, h0, hd1, hd2]
  simp only [Option.some_bind]
  rw [if_pos (by omega)]
  have he : 0 * 4096 + 0 * 256 + n / 16 * 16 + n % 16 = n := by omega
  rw [he]

/-- Either a character is emitted unescaped, and then it is not a quote,
a backslash or a control character, or its escape sequence starts with a
backslash and parsing that escape recovers the character. -/
theorem jsonEscapeChar_cases (c : Char) :
    (jsonEscapeChar c = [c] ∧ ¬c = quoteChar ∧ ¬c = backslashChar ∧ ¬c.toNat < 32) ∨
    (∃ tl, jsonEscapeChar c = backslashChar :: tl ∧
      ∀ tail, parseEscape (tl ++ tail) = some (c, tail)) := by
  unfold jsonEscapeChar
  split_ifs with hq hb h8 h9 h10 h12 h13 hc
  · right
    exact ⟨[quoteChar], rfl, fun tail => by rw [hq]; rfl⟩
  · right
    exact ⟨[backslashChar], rfl, fun tail => by rw [hb]; rfl⟩
  · right
    refine ⟨[Char.ofNat 98], rfl, fun tail => ?_⟩
    have hcc : c = Char.ofNat 8 := by
      have := Char.ofNat_toNat c
      rw [h8] at this
      exact this.symm
    rw [hcc]; rfl
  · right
    refine ⟨[Char.ofNat 116], rfl, fun tail => ?_⟩
    have hcc : c = Char.ofNat 9 := by
      have := Char.ofNat_toNat c
      rw [h9] at this
      exact this.symm
    rw [hcc]; rfl
  · right
    refine ⟨[Char.ofNat 110], rfl, fun tail => ?_⟩
    have hcc : c = Char.ofNat 10 := by
      have := Char.ofNat_toNat c
      rw [h10] at this
      exact this.symm
    rw [hcc]; rfl
  · right
    refine ⟨[Char.ofNat 102], rfl, fun tail => ?_⟩
    have hcc : c = Char.ofNat 12 := by
      have := Char.ofNat_toNat c
      rw [h12] at this
      exact this.symm
    rw [hcc]; rfl
  · right
    refine ⟨[Char.ofNat 114], rfl, fun tail => ?_⟩
    have hcc : c = Char.ofNat 13 := by
      have := Char.ofNat_toNat c
      rw [h13] at this
      exact this.symm
    rw [hcc]; rfl
  · right
    refine ⟨[Char.ofNat 117, Char.ofNat 48, Char.ofNat 48,
      hexDig (c.toNat / 16), hexDig (c.toNat % 16)], rfl, fun tail => ?_⟩
    show parseEscape (Char.ofNat 117 :: Char.ofNat 48 :: Char.ofNat 48 ::
      hexDig (c.toNat / 16) :: hexDig (c.toNat % 16) :: tail) = _
    rw [parseEscape_u c.toNat hc tail, Char.ofNat_toNat]
  · left
    exact ⟨rfl, hq, hb, hc⟩

/-- Equation of parseJStringBody with positive fuel on a cons cell. -/
theorem parseJStringBody_succ (fuel : Nat) (c : Char) (rest : List Char) :
    parseJStringBody (fuel + 1) (c :: rest) =
      if c = quoteChar then some ([], rest)
      else if c = backslashChar then
        match parseEscape rest with
        | some (e, r) => (parseJStringBody fuel r).map (fun p => (e :: p.1, p.2))
        | none => none
      else if c.toNat < 32 then none
      else (parseJStringBody fuel rest).map (fun p => (c :: p.1, p.2)) := rfl

/-- Reading the escaped body of a string up to a closing quote recovers
the original characters, for any sufficient fuel. -/
theorem parseJStringBody_jsonEscape (s : List Char) :
    ∀ (fuel : Nat), s.length < fuel → ∀ (rest : List Char),
      parseJStringBody fuel (jsonEscape s ++ (quoteChar :: rest)) = some (s, rest) := by
  induction s with
  | nil =>
      intro fuel hf rest
      cases fuel with
      | zero => omega
      | succ f =>
          show parseJStringBody (f + 1) (quoteChar :: rest) = _
          rw [parseJStringBody_succ, if_pos rfl]
  | cons c s ih =>
      intro fuel hf rest
      cases fuel with
      | zero => simp at hf
      | succ f =>
          have hf2 : s.length < f := by simp at hf; omega
          simp only [jsonEscape, List.append_assoc]
          rcases jsonEscapeChar_cases c with ⟨he, hnq, hnb, hnc⟩ | ⟨tl, he, hp⟩
          · rw [he, List.singleton_append, parseJStringBody_succ,
                if_neg hnq, if_neg hnb, if_neg hnc, ih f hf2 rest]
            rfl
          · rw [he, List.cons_append, parseJStringBody_succ,
                if_neg (by decide), if_pos rfl,
                hp (jsonEscape s ++ (quoteChar :: rest))]
            show (parseJStringBody f (jsonEscape s ++ (quoteChar :: rest))).map
              (fun p => (c :: p.1, p.2)) = some (c :: s, rest)
            rw [ih f hf2 rest]
            rfl

/-- Escaping never shortens a string. -/
theorem jsonEscape_length_ge (s : List Char) : s.length ≤ (jsonEscape s).length := by
  induction s with
  | nil => simp [jsonEscape]
  | cons c s ih =>
      show s.length + 1 ≤ (jsonEscapeChar c ++ jsonEscape s).length
      have h1 : 1 ≤ (jsonEscapeChar c).length := by
        unfold jsonEscapeChar
        split_ifs <;> simp
      simp only [List.length_append]
      omega

/-- Equation of parseJString on a cons cell. -/
theorem parseJString_cons (c : Char) (rest : List Char) :
    parseJString (c :: rest) =
      if c = quoteChar then
        (parseJStringBody rest.length rest).map (fun p => (String.mk p.1, p.2))
      else none := rfl

/-- Parsing a serialized JSON string literal recovers the string and the
following characters. -/
theorem parseJString_jsonQuote (s : String) (rest : List Char) :
    parseJString (jsonQuote s ++ rest) = some (s, rest) := by
  have hassoc : jsonQuote s ++ rest = quoteChar :: (jsonEscape s.data ++ (quoteChar :: rest)) := by
    simp [jsonQuote]
  rw [hassoc, parseJString_cons, if_pos rfl]
  have hfuel : s.data.length < (jsonEscape s.data ++ (quoteChar :: rest)).length := by
    have := jsonEscape_length_ge s.data
    simp only [List.length_append, List.length_cons]
    omega
  rw [parseJStringBody_jsonEscape s.data _ hfuel rest]
  show some (String.mk s.data, rest) = some (s, rest)
  cases s
  rfl

/-- Expect one specific character at the head of the input. -/
def expectChar (c : Char) (l : List Char) : Option (List Char) :=
  match l with
  | x :: r => if x = c then some r else none
  | [] => none

/-- Expecting a character that is present consumes it. -/
theorem expectChar_same (c : Char) (r : List Char) : expectChar c (c :: r) = some r := by
  show (if c = c then some r else none) = some r
  rw [if_pos rfl]

/-- Members of a flat JSON object with string values, read up to and
including the closing brace, with a member-count fuel. -/
def parseMembers : Nat → List Char → Option (List (String × JVal) × List Char)
  | 0, _ => none
  | fuel + 1, l =>
    (parseJString l).bind (fun kr =>
      (expectChar colonChar kr.2).bind (fun r2 =>
        (parseJString r2).bind (fun vr =>
          match vr.2 with
          | c2 :: r4 =>
            if c2 = commaChar then
              (parseMembers fuel r4).map (fun msr => ((kr.1, JVal.str vr.1) :: msr.1, msr.2))
            else if c2 = rbraceChar then some ([(kr.1, JVal.str vr.1)], r4)
            else none
          | [] => none)))

/-- Equation of parseMembers with positive fuel. -/
theorem parseMembers_succ (fuel : Nat) (l : List Char) :
    parseMembers (fuel + 1) l =
      (parseJString l).bind (fun kr =>
        (expectChar colonChar kr.2).bind (fun r2 =>
          (parseJString r2).bind (fun vr =>
            match vr.2 with
            | c2 :: r4 =>
              if c2 = commaChar then
                (parseMembers fuel r4).map (fun msr => ((kr.1, JVal.str vr.1) :: msr.1, msr.2))
              else if c2 = rbraceChar then some ([(kr.1, JVal.str vr.1)], r4)
              else none
            | [] => none))) := rfl

/-- One serialized member in the object body: quoted key, colon, quoted
string value. -/
def jsonMember (k v : String) : List Char := jsonQuote k ++ (colonChar :: jsonQuote v)

/-- JSON.stringify of the metadata object built by generateEventQRCode
and registerForEvent, with its five string fields in insertion order. -/
def stringifyMetadata (name email event eventId timestamp : String) : String :=
  String.mk (lbraceChar ::
    (jsonMember "name" name ++ (commaChar ::
    (jsonMember "email" email ++ (commaChar ::
    (jsonMember "event" event ++ (commaChar ::
    (jsonMember "eventId" eventId ++ (commaChar ::
    (jsonMember "timestamp" timestamp ++ [rbraceChar]))))))))))

/-- Parsing a serialized member following a comma peels it off. -/
theorem parseMembers_cons (fuel : Nat) (k v : String) (tail : List Char) :
    parseMembers (fuel + 1) (jsonMember k v ++ (commaChar :: tail)) =
      (parseMembers fuel tail).map (fun msr => ((k, JVal.str v) :: msr.1, msr.2)) := by
  simp only [jsonMember, List.append_assoc, List.cons_append]
  rw [parseMembers_succ,
      parseJString_jsonQuote k (colonChar :: (jsonQuote v ++ (commaChar :: tail))),
      Option.some_bind]
  show (expectChar colonChar (colonChar :: (jsonQuote v ++ (commaChar :: tail)))).bind _ = _
  rw [expectChar_same, Option.some_bind,
      parseJString_jsonQuote v (commaChar :: tail), Option.some_bind]
  show (if commaChar = commaChar then
      (parseMembers fuel tail).map (fun msr => ((k, JVal.str v) :: msr.1, msr.2))
    else if commaChar = rbraceChar then some ([(k, JVal.str v)], tail) else none) = _
  rw [if_pos rfl]

/-- Parsing the final serialized member and the closing brace finishes
the member list. -/
theorem parseMembers_last (fuel : Nat) (k v : String) (rest : List Char) :
    parseMembers (fuel + 1) (jsonMember k v ++ (rbraceChar :: rest)) =
      some ([(k, JVal.str v)], rest) := by
  simp only [jsonMember, List.append_assoc, List.cons_append]
  rw [parseMembers_succ,
      parseJString_jsonQuote k (colonChar :: (jsonQuote v ++ (rbraceChar :: rest))),
      Option.some_bind]
  show (expectChar colonChar (colonChar :: (jsonQuote v ++ (rbraceChar :: rest)))).bind _ = _
  rw [expectChar_same, Option.some_bind,
      parseJString_jsonQuote v (rbraceChar :: rest), Option.some_bind]
  show (if rbraceChar = commaChar then
      (parseMembers fuel rest).map (fun msr => ((k, JVal.str v) :: msr.1, msr.2))
    else if rbraceChar = rbraceChar then some ([(k, JVal.str v)], rest) else none) = _
  rw [if_neg (by decide), if_pos rfl]

/-- JSON.parse for the fragment this code produces: a flat object whose
values are string literals, with no interior whitespace, parsed from the
whole input. -/
def parseJsonFlat (str : String) : Option (List (String × JVal)) :=
  match str.data with
  | c :: rest =>
    if c = lbraceChar then
      match rest with
      | c2 :: r2 =>
        if c2 = rbraceChar then (if r2 = [] then some [] else none)
        else
          match parseMembers rest.length rest with
          | some (ms, r) => if r = [] then some ms else none
          | none => none
      | [] => none
    else none
  | [] => none

/-- A quoted string is at least two characters long. -/
theorem jsonQuote_length (s : String) : 2 ≤ (jsonQuote s).length := by
  simp only [jsonQuote, List.length_cons, List.length_append, List.length_singleton]
  omega

/-- A serialized member is at least five characters long. -/
theorem jsonMember_length (k v : String) : 5 ≤ (jsonMember k v).length := by
  have h1 := jsonQuote_length k
  have h2 := jsonQuote_length v
  simp only [jsonMember, List.length_append, List.length_cons]
  omega

/-- Parsing the serialization of the metadata object returns exactly its
five fields, in insertion order, as string values. -/
theorem parseJsonFlat_stringifyMetadata (name email event eventId timestamp : String) :
    parseJsonFlat (stringifyMetadata name email event eventId timestamp) =
      some [("name", JVal.str name), ("email", JVal.str email), ("event", JVal.str event),
            ("eventId", JVal.str eventId), ("timestamp", JVal.str timestamp)] := by
  unfold parseJsonFlat stringifyMetadata
  show (if lbraceChar = lbraceChar then _ else _) = _
  rw [if_pos rfl]
  have hbody : jsonMember "name" name ++ (commaChar ::
      (jsonMember "email" email ++ (commaChar ::
      (jsonMember "event" event ++ (commaChar ::
      (jsonMember "eventId" eventId ++ (commaChar ::
      (jsonMember "timestamp" timestamp ++ [rbraceChar])))))))) =
      quoteChar :: (jsonEscape "name".data ++ [quoteChar] ++ (colonChar :: jsonQuote name) ++
        (commaChar ::
        (jsonMember "email" email ++ (commaChar ::
        (jsonMember "event" event ++ (commaChar ::
        (jsonMember "eventId" eventId ++ (commaChar ::
        (jsonMember "timestamp" timestamp ++ [rbraceChar]))))))))) := by
    simp [jsonMember, jsonQuote]
  rw [hbody]
  show (if quoteChar = rbraceChar then _ else _) = _
  rw [if_neg (by decide)]
  rw [← hbody]
  set body := jsonMember "name" name ++ (commaChar ::
      (jsonMember "email" email ++ (commaChar ::
      (jsonMember "event" event ++ (commaChar ::
      (jsonMember "eventId" eventId ++ (commaChar ::
      (jsonMember "timestamp" timestamp ++ [rbraceChar])))))))) with hbodydef
  have h5 : 5 ≤ body.length := by
    have := jsonMember_length "name" name
    rw [hbodydef]
    simp only [List.length_append, List.length_cons]
    omega
  obtain ⟨f, hf⟩ := Nat.exists_eq_add_of_le h5
  have hf2 : body.length = (f + 4) + 1 := by omega
  rw [hf2, hbodydef, parseMembers_cons]
  have hf3 : f + 4 = (f + 3) + 1 := by omega
  rw [hf3, parseMembers_cons]
  have hf4 : f + 3 = (f + 2) + 1 := by omega
  rw [hf4, parseMembers_cons]
  have hf5 : f + 2 = (f + 1) + 1 := by omega
  rw [hf5, parseMembers_cons]
  have hlast : jsonMember "timestamp" timestamp ++ [rbraceChar] =
      jsonMember "timestamp" timestamp ++ (rbraceChar :: []) := rfl
  rw [hlast, parseMembers_last]
  rfl

/-! ## qrcode.ts: generateEventQRCode, decodeQRData, validateQRData -/

/-- The metadata object assembled by generateEventQRCode and by
registerForEvent: registrant name and email, event title, event id, and
the generation timestamp. -/
structure Metadata where
  name : String
  email : String
  event : String
  eventId : String
  timestamp : String
deriving Repr, DecidableEq

/-- Buffer.from(JSON.stringify(metadata)).toString base64: serialize the
metadata object and base64-encode its UTF-8 bytes. -/
def encodeMetadata (m : Metadata) : String :=
  String.mk (b64Encode (utf8Encode (stringifyMetadata m.name m.email m.event m.eventId
    m.timestamp).data))

/-- Result record of generateEventQRCode, restricted to the data fields
the round trip concerns: the base64 token and the metadata object. -/
structure QRCodeResult where
  encodedMetadata : String
  metadata : Metadata
deriving Repr, DecidableEq

/-- generateEventQRCode from src/lib/qrcode.ts: build the metadata
object, JSON-serialize it and base64-encode the result. The generated
timestamp (new Date().toISOString()) is passed in as a parameter; the
QR image rendering does not affect the returned encodedMetadata. -/
def generateEventQRCode (name email event eventId timestamp : String) : QRCodeResult :=
  { encodedMetadata := encodeMetadata ⟨name, email, event, eventId, timestamp⟩,
    metadata := ⟨name, email, event, eventId, timestamp⟩ }

/-- decodeQRData from src/lib/qrcode.ts: base64-decode
(Buffer.from(encodedData, base64).toString utf-8), then JSON.parse; any
failure in the chain yields the error outcome, modelled as none. -/
def decodeQRData (encodedData : String) : Option (List (String × JVal)) :=
  (b64Decode encodedData.data).bind (fun bytes =>
    (utf8Decode bytes).bind (fun cs => parseJsonFlat (String.mk cs)))

/-- Every UTF-8 byte of an encoded character list is an octet. -/
theorem utf8Encode_lt (cs : List Char) : ∀ b ∈ utf8Encode cs, b < 256 := by
  induction cs with
  | nil => intro b hb; cases hb
  | cons c cs ih =>
      intro b hb
      show b < 256
      rcases List.mem_append.mp hb with hb | hb
      · exact utf8EncBytes_lt c.toNat (by rcases char_toNat_valid c with h | h <;> omega) b hb
      · exact ih b hb

/-- Rebuilding a string from its character data is the identity. -/
theorem stringMk_data (s : String) : String.mk s.data = s := by cases s; rfl

/-- JS truthiness of a JSON value: empty strings, zero, false and null
are falsy; the check in validateQRData is a truthiness test. -/
def jsTruthy : JVal → Bool
  | JVal.str s => !(s == "")
  | JVal.num n => !(n == 0)
  | JVal.bool b => b
  | JVal.null => false

/-- The required-fields list of validateQRData, in source order. -/
def requiredFields : List String := ["name", "email", "event", "eventId"]

/-- The loop of validateQRData: the first required field whose value is
absent or falsy, none when all pass. -/
def firstMissingField (data : List (String × JVal)) : List String → Option String
  | [] => none
  | f :: fs =>
    match data.lookup f with
    | some v => if jsTruthy v then firstMissingField data fs else some f
    | none => some f

/-- validateQRData from src/lib/qrcode.ts: succeed with the data when
every required field is present and truthy, otherwise report the first
failing field. -/
def validateQRData (data : List (String × JVal)) : Except String (List (String × JVal)) :=
  match firstMissingField data requiredFields with
  | some f => Except.error ("Missing required field: " ++ f)
  | none => Except.ok data

/-- The placeholder returned by generateQRCodeBuffer when rendering
throws: the bytes of the base64 constant in the source. -/
def fallbackPNG : List Nat :=
  (b64Decode ("iVBORw0KGgoAAAANSUhEUgAAAAEAAAABCAQAAAC1HAwCAAAAC0lEQVR42mNk" ++
    "+A8AAQUBAScY42YAAAAASUVORK5CYII=").data).getD []

/-- generateQRCodeBuffer from src/lib/qrcode.ts: return the rendered PNG
buffer, and on any rendering exception return the fixed fallback PNG
instead of propagating the failure. The renderer (QRCode.toBuffer) is an
oracle: its outcome for the given input is passed as an argument. -/
def generateQRCodeBuffer (renderOutcome : Except String (List Nat)) : List Nat :=
  match renderOutcome with
  | Except.ok buf => buf
  | Except.error _ => fallbackPNG

/-! ## The storage state and the events service (src/lib/events.ts) -/

/-- One row of a per-event attendance table, as inserted by
registerForEvent and as created by create_event_attendance_table. -/
structure RegRow where
  event_id : String
  name : String
  email : String
  qrdata : String
deriving Repr, DecidableEq

/-- One row of the events table, restricted to the columns this
subsystem reads. -/
structure EventRow where
  id : String
  title : String
deriving Repr, DecidableEq

/-- The storage state: the events table and the named per-event
attendance tables. -/
structure DB where
  events : List EventRow
  tables : List (String × List RegRow)
deriving Repr, DecidableEq

/-- Whether a table of the given name exists; a query against a missing
table surfaces error code 42P01. -/
def tableExists (db : DB) (t : String) : Bool :=
  db.tables.any (fun p => p.1 == t)

/-- The rows of a named table, empty when the table is missing. -/
def tableRows (db : DB) (t : String) : List RegRow :=
  ((db.tables.find? (fun p => p.1 == t)).map Prod.snd).getD []

/-- CREATE TABLE IF NOT EXISTS from the create_event_attendance_table
stored procedure: add an empty table of that name when absent, otherwise
change nothing. -/
def createTable (db : DB) (t : String) : DB :=
  if tableExists db t then db else { db with tables := db.tables ++ [(t, [])] }

/-- Append a row to the named table. -/
def insertRow (db : DB) (t : String) (r : RegRow) : DB :=
  { db with tables := db.tables.map (fun p => if p.1 == t then (p.1, p.2 ++ [r]) else p) }

/-- Whether the named table holds a row with the given email; the email
column carries a UNIQUE constraint, so an insert for an existing email
surfaces error code 23505. -/
def emailExists (db : DB) (t email : String) : Bool :=
  (tableRows db t).any (fun r => r.email == email)

/-- Number of rows with the given email in the named table. -/
def emailCount (db : DB) (t email : String) : Nat :=
  (tableRows db t).countP (fun r => r.email == email)

/-- Count of tables carrying the given name. -/
def tableCount (db : DB) (t : String) : Nat :=
  db.tables.countP (fun p => p.1 == t)

/-- The user data passed to registerForEvent: name, email, and the
optional pre-encoded qrdata token. -/
structure UserData where
  name : String
  email : String
  qrdata : Option String
deriving Repr, DecidableEq

/-- The result record of registerForEvent: the success flag, the error
message of the failure branches, and the encoded metadata on success. -/
structure RegResult where
  success : Bool
  errorMsg : Option String
  encodedMetadata : Option String
deriving Repr, DecidableEq

/-- The check-then-create fragment of registerForEvent: query the table,
and on error code 42P01 invoke the create_event_attendance_table stored
procedure. A failure of that procedure call is injected through rpcErr
and produces the administrator-facing message; when the table already
exists nothing happens and no error is possible. -/
def ensureTable (db : DB) (tableName : String) (rpcErr : Option String) : DB × Option String :=
  if tableExists db tableName then (db, none)
  else
    match rpcErr with
    | some _ =>
        (db, some "Could not create attendance tracking table. Please contact an administrator.")
    | none => (createTable db tableName, none)

/-- The insert step of registerForEvent: the UNIQUE email constraint
rejects a duplicate with code 23505, translated to the
already-registered message; otherwise the row is stored. -/
def registerInsert (db : DB) (tableName eventId : String) (userData : UserData)
    (encoded : String) : DB × RegResult :=
  if emailExists db tableName userData.email then
    (db, ⟨false, some "You are already registered for this event.", none⟩)
  else
    (insertRow db tableName ⟨eventId, userData.name, userData.email, encoded⟩,
      ⟨true, none, some encoded⟩)

/-- registerForEvent from src/lib/events.ts: derive the table name from
the sanitized title, take the provided qrdata or (when absent or empty)
encode the metadata object with the current timestamp, provision the
table if it does not exist, then insert the registration row. -/
def registerForEvent (db : DB) (eventId eventTitle : String) (userData : UserData)
    (now : String) (rpcErr : Option String) : DB × RegResult :=
  let tableName := tableNameFor eventTitle eventId
  let encoded :=
    match userData.qrdata with
    | some q =>
        if q == "" then
          encodeMetadata ⟨userData.name, userData.email, eventTitle, eventId, now⟩
        else q
    | none => encodeMetadata ⟨userData.name, userData.email, eventTitle, eventId, now⟩
  match ensureTable db tableName rpcErr with
  | (db1, none) => registerInsert db1 tableName eventId userData encoded
  | (db1, some msg) => (db1, ⟨false, some msg, none⟩)

/-- isUserRegistered from src/lib/events.ts: derive the table name and
query it for the email; error code 42P01 (missing table) is translated
to the not-registered answer with no error. -/
def isUserRegistered (db : DB) (eventId eventTitle email : String) : Bool × Option String :=
  let tableName := tableNameFor eventTitle eventId
  if tableExists db tableName then
    ((tableRows db tableName).any (fun r => r.email == email), none)
  else (false, none)

/-- Remove every row of the named table, keeping the table itself, as
the delete with the not-null filter does. -/
def clearTable (db : DB) (t : String) : DB :=
  { db with tables := db.tables.map (fun p => if p.1 == t then (p.1, []) else p) }

/-- Remove the event row with the given id. -/
def removeEvent (db : DB) (eventId : String) : DB :=
  { db with events := db.events.filter (fun e => !(e.id == eventId)) }

/-- deleteEvent from src/lib/events.ts: look up the event title, derive
the attendance table name, delete all attendance rows, and only then
delete the event row. A missing event or a missing attendance table
surfaces the phase-specific error and changes nothing; a transient
failure of the attendance-row deletion is injected through
attDeleteFails, and one of the event-row deletion through
eventDeleteErr. -/
def deleteEvent (db : DB) (eventId : String) (attDeleteFails : Bool)
    (eventDeleteErr : Option String) : DB × Option String :=
  match db.events.find? (fun e => e.id == eventId) with
  | none => (db, some "Failed to get event details for deletion")
  | some ev =>
    let tableName := tableNameFor ev.title eventId
    if !tableExists db tableName || attDeleteFails then
      (db, some "Failed to delete event attendance records")
    else
      let db1 := clearTable db tableName
      match eventDeleteErr with
      | some e => (db1, some e)
      | none => (removeEvent db1 eventId, none)

/-! ## The POST handler of src/app/api/register-event/route.ts -/

/-- The parsed request body fields; a missing field is none, and JS
treats a missing field and an empty string alike as falsy. -/
structure PostBody where
  eventId : Option String
  name : Option String
  email : Option String
deriving Repr, DecidableEq

/-- JS falsiness of an optional string field: absent or empty. -/
def jsFalsyStr (o : Option String) : Bool := o.getD "" == ""

/-- The JSON body and status of a NextResponse produced by the POST
handler. -/
structure ApiResponse where
  status : Nat
  success : Option Bool
  message : Option String
  warning : Option String
  error : Option String
deriving Repr, DecidableEq

/-- getEventById restricted to this state model: the single event row
with the given id, none when the lookup errs. -/
def findEvent (db : DB) (eventId : String) : Option EventRow :=
  db.events.find? (fun e => e.id == eventId)

/-- POST from src/app/api/register-event/route.ts: validate the fields,
resolve the event, generate the QR metadata, register, and send the
confirmation email. qrOk injects the outcome of QRCode.toDataURL,
rpcErr that of the table-creation procedure, and emailSendOk that of
the mail transport; now stands for new Date().toISOString(). -/
def registerEventPOST (db : DB) (body : PostBody) (now : String) (qrOk : Bool)
    (rpcErr : Option String) (emailSendOk : Bool) : DB × ApiResponse :=
  if jsFalsyStr body.eventId || jsFalsyStr body.name || jsFalsyStr body.email then
    (db, ⟨400, none, none, none, some "Missing required fields"⟩)
  else
    match findEvent db (body.eventId.getD "") with
    | none => (db, ⟨500, none, none, none, some "Failed to retrieve event details"⟩)
    | some ev =>
      if !qrOk then (db, ⟨500, none, none, none, some "Failed to generate QR code"⟩)
      else
        let encoded := (generateEventQRCode (body.name.getD "") (body.email.getD "")
          ev.title (body.eventId.getD "") now).encodedMetadata
        match registerForEvent db (body.eventId.getD "") ev.title
            ⟨body.name.getD "", body.email.getD "", some encoded⟩ now rpcErr with
        | (db1, r) =>
          if !r.success then (db1, ⟨400, none, none, none, r.errorMsg⟩)
          else if !emailSendOk then
            (db1, ⟨200, some true, some "Registration successful.",
              some "Registration successful, but failed to send confirmation email.", none⟩)
          else (db1, ⟨200, some true, some "Registration successful!", none, none⟩)

/-! ## State lemmas -/

/-- Searching an append whose first part has no hit searches the second
part. -/
theorem find?_append_of_eq_none {α : Type} (p : α → Bool) (l1 l2 : List α)
    (h : l1.find? p = none) : (l1 ++ l2).find? p = l2.find? p := by
  induction l1 with
  | nil => simp
  | cons a l ih =>
      cases hpa : p a
      · simp only [List.find?_cons, hpa, cond_false] at h
        simp only [List.cons_append, List.find?_cons, hpa, cond_false]
        exact ih h
      · simp only [List.find?_cons, hpa, cond_true] at h
        cases h

/-- A missing table has no entry in the table list. -/
theorem find?_none_of_not_exists (db : DB) (t : String) (h : tableExists db t = false) :
    db.tables.find? (fun p => p.1 == t) = none := by
  unfold tableExists at h
  rw [List.find?_eq_none]
  intro x hx
  simp only [List.any_eq_false] at h
  simp [h x hx]

/-- Creating a table makes it exist. -/
theorem tableExists_createTable (db : DB) (t : String) :
    tableExists (createTable db t) t = true := by
  unfold createTable
  split_ifs with h
  · exact h
  · unfold tableExists
    simp [List.any_append]

/-- Creating a table that exists changes nothing. -/
theorem createTable_of_exists (db : DB) (t : String) (h : tableExists db t = true) :
    createTable db t = db := by
  unfold createTable
  rw [if_pos h]

/-- A freshly created table is empty. -/
theorem tableRows_createTable_absent (db : DB) (t : String)
    (h : tableExists db t = false) :
    tableRows (createTable db t) t = [] := by
  unfold tableRows createTable
  rw [if_neg (by simp [h])]
  simp only
  rw [find?_append_of_eq_none _ _ _ (find?_none_of_not_exists db t h)]
  simp

/-- Creating a table preserves the events table. -/
theorem events_createTable (db : DB) (t : String) :
    (createTable db t).events = db.events := by
  unfold createTable
  split_ifs <;> rfl

/-- Inserting a row does not change which tables exist. -/
theorem tableExists_insertRow (db : DB) (t u : String) (r : RegRow) :
    tableExists (insertRow db t r) u = tableExists db u := by
  unfold tableExists insertRow
  simp only [List.any_map]
  congr 1
  funext p
  by_cases hp : p.1 == t
  · simp [Function.comp, hp]
  · simp [Function.comp, hp]

/-- Updating the entry of one key rewrites exactly the hit of a search
for that key. -/
theorem find?_map_update (t : String) (g : List RegRow → List RegRow)
    (l : List (String × List RegRow)) :
    (l.map (fun p => if p.1 == t then (p.1, g p.2) else p)).find? (fun p => p.1 == t) =
      (l.find? (fun p => p.1 == t)).map (fun p => (p.1, g p.2)) := by
  induction l with
  | nil => rfl
  | cons hd tl ih =>
      by_cases hh : hd.1 = t
      · have hbeq : (hd.1 == t) = true := by simp [hh]
        simp only [List.map_cons, List.find?_cons]
        rw [if_pos hbeq]
        simp [hbeq]
      · have hbeq : (hd.1 == t) = false := by simp [hh]
        simp only [List.map_cons, List.find?_cons]
        rw [if_neg (by simp [hh])]
        simp only [hbeq, cond_false]
        exact ih

/-- A successful search satisfies its predicate. -/
theorem find?_pred {α : Type} (p : α → Bool) (l : List α) (a : α)
    (h : l.find? p = some a) : p a = true := by
  induction l with
  | nil => cases h
  | cons x xs ih =>
      cases hx : p x
      · simp only [List.find?_cons, hx, cond_false] at h
        exact ih h
      · simp only [List.find?_cons, hx, cond_true] at h
        cases h
        exact hx

/-- An existing table has an entry in the table list. -/
theorem find?_some_of_exists (db : DB) (t : String) (h : tableExists db t = true) :
    ∃ q, db.tables.find? (fun p => p.1 == t) = some q ∧ (q.1 == t) = true := by
  unfold tableExists at h
  simp only [List.any_eq_true] at h
  obtain ⟨x, hx, hpx⟩ := h
  have hs : (db.tables.find? (fun p => p.1 == t)).isSome := by
    rw [List.find?_isSome]
    exact ⟨x, hx, hpx⟩
  obtain ⟨q, hq⟩ := Option.isSome_iff_exists.mp hs
  exact ⟨q, hq, find?_pred (fun p => p.1 == t) db.tables q hq⟩

/-- Inserting a row appends it to the rows of its table. -/
theorem tableRows_insertRow_same (db : DB) (t : String) (r : RegRow)
    (h : tableExists db t = true) :
    tableRows (insertRow db t r) t = tableRows db t ++ [r] := by
  obtain ⟨q, hq, hqt⟩ := find?_some_of_exists db t h
  unfold tableRows insertRow
  simp only
  rw [find?_map_update t (fun rows => rows ++ [r]) db.tables, hq]
  simp

/-- Inserting a row preserves the events table. -/
theorem events_insertRow (db : DB) (t : String) (r : RegRow) :
    (insertRow db t r).events = db.events := rfl

/-- Clearing a table does not change which tables exist. -/
theorem tableExists_clearTable (db : DB) (t u : String) :
    tableExists (clearTable db t) u = tableExists db u := by
  unfold tableExists clearTable
  simp only [List.any_map]
  congr 1
  funext p
  by_cases hp : p.1 == t
  · simp [Function.comp, hp]
  · simp [Function.comp, hp]

/-- Clearing a table empties its rows. -/
theorem tableRows_clearTable_same (db : DB) (t : String)
    (h : tableExists db t = true) :
    tableRows (clearTable db t) t = [] := by
  obtain ⟨q, hq, hqt⟩ := find?_some_of_exists db t h
  unfold tableRows clearTable
  simp only
  rw [find?_map_update t (fun _ => []) db.tables, hq]
  simp

/-- Clearing a table preserves the events table. -/
theorem events_clearTable (db : DB) (t : String) :
    (clearTable db t).events = db.events := rfl

/-- Removing an event preserves the attendance tables. -/
theorem tables_removeEvent (db : DB) (eventId : String) :
    (removeEvent db eventId).tables = db.tables := rfl

/-- After removing an event its id no longer resolves. -/
theorem findEvent_removeEvent (db : DB) (eventId : String) :
    findEvent (removeEvent db eventId) eventId = none := by
  unfold findEvent removeEvent
  rw [List.find?_eq_none]
  intro e he
  simp only [List.mem_filter] at he
  simpa using he.2

/-- A table without the email has zero rows with it. -/
theorem emailCount_zero (db : DB) (t email : String) (h : emailExists db t email = false) :
    emailCount db t email = 0 := by
  unfold emailExists at h
  unfold emailCount
  rw [List.countP_eq_zero]
  intro r hr
  simp only [List.any_eq_false] at h
  simp [h r hr]

/-- A positive count of rows with the email means the email exists. -/
theorem emailExists_of_count_pos (db : DB) (t email : String)
    (h : 0 < emailCount db t email) : emailExists db t email = true := by
  unfold emailCount at h
  unfold emailExists
  rw [List.countP_pos_iff] at h
  exact List.any_eq_true.mpr h

/-- A freshly created table contains no email. -/
theorem emailExists_createTable_absent (db : DB) (t email : String)
    (h : tableExists db t = false) :
    emailExists (createTable db t) t email = false := by
  unfold emailExists
  rw [tableRows_createTable_absent db t h]
  rfl

/-- A zero table count means the table does not exist. -/
theorem tableExists_false_of_count_zero (db : DB) (t : String)
    (h : tableCount db t = 0) : tableExists db t = false := by
  unfold tableCount at h
  unfold tableExists
  rw [List.countP_eq_zero] at h
  rw [List.any_eq_false]
  intro x hx
  simpa using h x hx

/-- Creating an absent table brings its count from zero to one. -/
theorem tableCount_createTable_absent (db : DB) (t : String)
    (h : tableCount db t = 0) :
    tableCount (createTable db t) t = 1 := by
  have hex := tableExists_false_of_count_zero db t h
  unfold createTable
  rw [if_neg (by simp [hex])]
  unfold tableCount at h ⊢
  simp [List.countP_append, h]

/-- Registration on a state whose table has no row with the email
succeeds, stores the row, and leaves exactly one row with that email. -/
theorem registerForEvent_fresh (db : DB) (eventId eventTitle : String) (userData : UserData)
    (now : String)
    (h : emailExists db (tableNameFor eventTitle eventId) userData.email = false) :
    (registerForEvent db eventId eventTitle userData now none).2.success = true ∧
    (registerForEvent db eventId eventTitle userData now none).2.errorMsg = none ∧
    tableExists (registerForEvent db eventId eventTitle userData now none).1
      (tableNameFor eventTitle eventId) = true ∧
    emailCount (registerForEvent db eventId eventTitle userData now none).1
      (tableNameFor eventTitle eventId) userData.email = 1 := by
  unfold registerForEvent
  dsimp only
  by_cases ht : tableExists db (tableNameFor eventTitle eventId) = true
  · have he : ensureTable db (tableNameFor eventTitle eventId) none = (db, none) := by
      unfold ensureTable
      rw [if_pos ht]
    rw [he]
    dsimp only
    unfold registerInsert
    rw [if_neg (by simp [h])]
    refine ⟨rfl, rfl, ?_, ?_⟩
    · rw [tableExists_insertRow]
      exact ht
    · unfold emailCount
      rw [tableRows_insertRow_same db _ _ ht]
      rw [List.countP_append]
      have h0 := emailCount_zero db _ _ h
      unfold emailCount at h0
      rw [h0]
      simp
  · have htf : tableExists db (tableNameFor eventTitle eventId) = false := by
      simpa using ht
    have he : ensureTable db (tableNameFor eventTitle eventId) none =
        (createTable db (tableNameFor eventTitle eventId), none) := by
      unfold ensureTable
      rw [if_neg (by simp [htf])]
    rw [he]
    dsimp only
    unfold registerInsert
    have hce := emailExists_createTable_absent db _ userData.email htf
    rw [if_neg (by simp [hce])]
    have hct := tableExists_createTable db (tableNameFor eventTitle eventId)
    refine ⟨rfl, rfl, ?_, ?_⟩
    · rw [tableExists_insertRow]
      exact hct
    · unfold emailCount
      rw [tableRows_insertRow_same _ _ _ hct,
          tableRows_createTable_absent db _ htf]
      simp

/-- Registration against a table that already holds the email returns
the already-registered message and changes nothing, whatever the
provisioning oracle would do. -/
theorem registerForEvent_duplicate (db : DB) (eventId eventTitle : String)
    (userData : UserData) (now : String) (rpcErr : Option String)
    (ht : tableExists db (tableNameFor eventTitle eventId) = true)
    (he : emailExists db (tableNameFor eventTitle eventId) userData.email = true) :
    registerForEvent db eventId eventTitle userData now rpcErr =
      (db, ⟨false, some "You are already registered for this event.", none⟩) := by
  unfold registerForEvent
  dsimp only
  have hens : ensureTable db (tableNameFor eventTitle eventId) rpcErr = (db, none) := by
    unfold ensureTable
    rw [if_pos ht]
  rw [hens]
  dsimp only
  unfold registerInsert
  rw [if_pos he]

/-- Sanitization replaces characters one for one, so it yields the
empty string only for the empty title. -/
theorem sanitizedTitle_empty_iff (title : String) : sanitizedTitle title = "" ↔ title = "" := by
  unfold sanitizedTitle
  constructor
  · intro h
    have h2 : title.data.map sanitizeChar = [] := congrArg String.data h
    have h3 : title.data = [] := List.map_eq_nil_iff.mp h2
    have h4 := stringMk_data title
    rw [h3] at h4
    exact h4.symm
  · intro h
    rw [h]
    rfl

/-- No field is reported exactly when every field in the list is
present with a truthy value. -/
theorem firstMissingField_none_iff (data : List (String × JVal)) (fs : List String) :
    firstMissingField data fs = none ↔
      ∀ f ∈ fs, ∃ v, data.lookup f = some v ∧ jsTruthy v = true := by
  induction fs with
  | nil => simp [firstMissingField]
  | cons f fs ih =>
      unfold firstMissingField
      cases hl : data.lookup f with
      | none =>
          simp only [List.mem_cons]
          constructor
          · intro h; cases h
          · intro h
            obtain ⟨v, hv, _⟩ := h f (Or.inl rfl)
            rw [hl] at hv
            cases hv
      | some v =>
          dsimp only
          cases htr : jsTruthy v with
          | false =>
              rw [if_neg (by simp [htr])]
              simp only [List.mem_cons]
              constructor
              · intro h; cases h
              · intro h
                obtain ⟨w, hw, hwt⟩ := h f (Or.inl rfl)
                rw [hl] at hw
                cases hw
                rw [htr] at hwt
                cases hwt
          | true =>
              rw [if_pos (by simp [htr])]
              rw [ih]
              constructor
              · intro h g hg
                rcases List.mem_cons.mp hg with hg | hg
                · subst hg
                  exact ⟨v, hl, htr⟩
                · exact h g hg
              · intro h g hg
                exact h g (List.mem_cons.mpr (Or.inr hg))

/-- The reported field is in the list and is absent or falsy. -/
theorem firstMissingField_some_spec (data : List (String × JVal)) (fs : List String)
    (f : String) (h : firstMissingField data fs = some f) :
    f ∈ fs ∧ (data.lookup f = none ∨ ∃ v, data.lookup f = some v ∧ jsTruthy v = false) := by
  induction fs with
  | nil => cases h
  | cons g gs ih =>
      unfold firstMissingField at h
      cases hl : data.lookup g with
      | none =>
          rw [hl] at h
          cases h
          exact ⟨List.mem_cons.mpr (Or.inl rfl), Or.inl hl⟩
      | some v =>
          rw [hl] at h
          dsimp only at h
          cases htr : jsTruthy v with
          | false =>
              rw [if_neg (by simp [htr])] at h
              cases h
              exact ⟨List.mem_cons.mpr (Or.inl rfl), Or.inr ⟨v, hl, htr⟩⟩
          | true =>
              rw [if_pos (by simp [htr])] at h
              obtain ⟨hmem, hstat⟩ := ih h
              exact ⟨List.mem_cons.mpr (Or.inr hmem), hstat⟩

/-! ## Claims -/

/-- C1: registering the same (eventId, email) twice leaves exactly one
stored registration row; the second call fails with the translated
uniqueness-violation message (error code 23505 becomes the message
"You are already registered for this event."), never a generic failure,
and changes no state. -/
theorem registerForEvent_unique_email (db : DB) (eventId eventTitle : String)
    (userData : UserData) (now now2 : String) (rpcErr2 : Option String)
    (h : emailExists db (tableNameFor eventTitle eventId) userData.email = false) :
    (registerForEvent db eventId eventTitle userData now none).2.success = true ∧
    emailCount (registerForEvent db eventId eventTitle userData now none).1
      (tableNameFor eventTitle eventId) userData.email = 1 ∧
    registerForEvent (registerForEvent db eventId eventTitle userData now none).1
        eventId eventTitle userData now2 rpcErr2 =
      ((registerForEvent db eventId eventTitle userData now none).1,
        ⟨false, some "You are already registered for this event.", none⟩) ∧
    emailCount (registerForEvent (registerForEvent db eventId eventTitle userData now none).1
        eventId eventTitle userData now2 rpcErr2).1
      (tableNameFor eventTitle eventId) userData.email = 1 := by
  obtain ⟨hs, herr, hex, hcount⟩ := registerForEvent_fresh db eventId eventTitle userData now h
  have hdup := registerForEvent_duplicate
    (registerForEvent db eventId eventTitle userData now none).1 eventId eventTitle userData
    now2 rpcErr2 hex (emailExists_of_count_pos _ _ _ (by omega))
  refine ⟨hs, hcount, hdup, ?_⟩
  rw [hdup]
  exact hcount

/-- C1 witness at a concrete state and registrant. -/
theorem registerForEvent_unique_email_witness :
    emailExists ⟨[⟨"E1", "T"⟩], []⟩ (tableNameFor "T" "E1") "ada@x.com" = false ∧
    (registerForEvent ⟨[⟨"E1", "T"⟩], []⟩ "E1" "T" ⟨"Ada", "ada@x.com", some "qr"⟩
      "t0" none).2.success = true := by
  have h : emailExists ⟨[⟨"E1", "T"⟩], []⟩ (tableNameFor "T" "E1") "ada@x.com" = false := by
    decide
  exact ⟨h, (registerForEvent_unique_email ⟨[⟨"E1", "T"⟩], []⟩ "E1" "T"
    ⟨"Ada", "ada@x.com", some "qr"⟩ "t0" "t1" none h).1⟩

/-- C2: decoding the token produced by generateEventQRCode recovers the
metadata object exactly: every base64 token built from JSON-serialized
metadata decodes to the object with the same name, email, event title,
event id and timestamp fields, for arbitrary (including unicode)
strings. -/
theorem decodeQRData_generateEventQRCode (name email event eventId timestamp : String) :
    decodeQRData (generateEventQRCode name email event eventId timestamp).encodedMetadata =
      some [("name", JVal.str name), ("email", JVal.str email), ("event", JVal.str event),
            ("eventId", JVal.str eventId), ("timestamp", JVal.str timestamp)] := by
  unfold decodeQRData generateEventQRCode encodeMetadata
  show (b64Decode (b64Encode (utf8Encode (stringifyMetadata name email event eventId
    timestamp).data))).bind _ = _
  rw [b64Decode_b64Encode _ (utf8Encode_lt _), Option.some_bind,
      utf8Decode_utf8Encode, Option.some_bind, stringMk_data,
      parseJsonFlat_stringifyMetadata]

/-- C3 counterexample: for the empty title, sanitization yields the
empty string, and the code derives event__E1 with no fallback, while
the claimed fallback would give event_event_E1. -/
theorem tableNameFor_fallback_counterexample :
    tableNameFor "" "E1" = "event__E1" ∧ tableNameFor "" "E1" ≠ tableNameForSpec "" "E1" := by
  decide

/-- C3 amended: the derived name is event_ plus the lowercased title
with every character outside [a-z0-9] replaced by an underscore, plus an
underscore and the event id, with no empty-sanitization fallback; since
sanitization replaces characters one for one, it yields the empty
string only for the empty title, so the code agrees with the claimed
formula on every nonempty title; Scenario A holds. -/
theorem tableNameFor_amended (title eventId : String) :
    (title ≠ "" → tableNameFor title eventId = tableNameForSpec title eventId) ∧
    (sanitizedTitle title = "" ↔ title = "") ∧
    tableNameFor "Fall Kickoff!" "E1" = "event_fall_kickoff__E1" := by
  refine ⟨?_, sanitizedTitle_empty_iff title, by decide⟩
  intro h
  unfold tableNameForSpec
  rw [if_neg (fun hc => h ((sanitizedTitle_empty_iff title).mp hc))]
  rfl

/-- C3 amended witness at Scenario A. -/
theorem tableNameFor_amended_witness :
    "Fall Kickoff!" ≠ "" ∧
    tableNameFor "Fall Kickoff!" "E1" = tableNameForSpec "Fall Kickoff!" "E1" :=
  ⟨by decide, (tableNameFor_amended "Fall Kickoff!" "E1").1 (by decide)⟩

/-- C4: the check-then-create provisioning path is idempotent: from a
state with no such table, any number N of calls results in exactly one
table, every call after the first is a no-op returning the same state,
and once the table exists a call succeeds with no error whatever the
stored-procedure oracle would have answered. -/
theorem ensureTable_provisioning_idempotent (db : DB) (t : String) (N : Nat) (hN : 1 ≤ N)
    (h0 : tableCount db t = 0) :
    tableCount (ensureTable db t none).1 t = 1 ∧
    (∀ rpcErr, ensureTable (ensureTable db t none).1 t rpcErr =
      ((ensureTable db t none).1, none)) ∧
    (fun d => (ensureTable d t none).1)^[N] db = (ensureTable db t none).1 := by
  have hmiss := tableExists_false_of_count_zero db t h0
  have hstep : ensureTable db t none = (createTable db t, none) := by
    unfold ensureTable
    rw [if_neg (by simp [hmiss])]
  have hex : tableExists (ensureTable db t none).1 t = true := by
    rw [hstep]
    exact tableExists_createTable db t
  have hfix0 : ∀ (d : DB), tableExists d t = true → ∀ rpcErr,
      ensureTable d t rpcErr = (d, none) := by
    intro d hd rpcErr
    unfold ensureTable
    rw [if_pos hd]
  have hfix : ∀ rpcErr, ensureTable (ensureTable db t none).1 t rpcErr =
      ((ensureTable db t none).1, none) := fun rpcErr => hfix0 _ hex rpcErr
  refine ⟨?_, hfix, ?_⟩
  · rw [hstep]
    exact tableCount_createTable_absent db t h0
  · obtain ⟨m, hm⟩ : ∃ m, N = m + 1 := ⟨N - 1, by omega⟩
    subst hm
    rw [Function.iterate_succ_apply]
    exact Function.iterate_fixed (by rw [hfix none]) m

/-- C4 witness: three provisioning calls on an empty state. -/
theorem ensureTable_provisioning_idempotent_witness :
    1 ≤ 3 ∧ tableCount (⟨[], []⟩ : DB) "event_t_E1" = 0 ∧
    tableCount (ensureTable ⟨[], []⟩ "event_t_E1" none).1 "event_t_E1" = 1 :=
  ⟨by decide, by decide,
    (ensureTable_provisioning_idempotent ⟨[], []⟩ "event_t_E1" 3 (by decide) (by decide)).1⟩

/-- C5: deleteEvent deletes all attendance rows before the event row;
when the row-deletion phase fails the state is unchanged (the event row
remains) and the phase-naming error is returned; when only the
event-row deletion fails, the rows are already cleared but the event
remains; after full success no attendance row of the event remains and
the event id no longer resolves. -/
theorem deleteEvent_two_phase (db : DB) (eventId : String) (ev : EventRow)
    (hev : db.events.find? (fun e => e.id == eventId) = some ev)
    (ht : tableExists db (tableNameFor ev.title eventId) = true) :
    (∀ eErr, deleteEvent db eventId true eErr =
      (db, some "Failed to delete event attendance records")) ∧
    (∀ e, deleteEvent db eventId false (some e) =
      (clearTable db (tableNameFor ev.title eventId), some e) ∧
      findEvent (deleteEvent db eventId false (some e)).1 eventId = some ev) ∧
    (deleteEvent db eventId false none).2 = none ∧
    tableRows (deleteEvent db eventId false none).1 (tableNameFor ev.title eventId) = [] ∧
    findEvent (deleteEvent db eventId false none).1 eventId = none := by
  have hred : ∀ (att : Bool) (eErr : Option String),
      deleteEvent db eventId att eErr =
        (if !tableExists db (tableNameFor ev.title eventId) || att then
          (db, some "Failed to delete event attendance records")
        else
          match eErr with
          | some e => (clearTable db (tableNameFor ev.title eventId), some e)
          | none => (removeEvent (clearTable db (tableNameFor ev.title eventId)) eventId,
              none)) := by
    intro att eErr
    unfold deleteEvent
    rw [hev]
  refine ⟨?_, ?_, ?_, ?_, ?_⟩
  · intro eErr
    rw [hred true eErr, if_pos (by simp)]
  · intro e
    constructor
    · rw [hred false (some e), if_neg (by simp [ht])]
    · rw [hred false (some e), if_neg (by simp [ht])]
      show findEvent (clearTable db (tableNameFor ev.title eventId)) eventId = some ev
      exact hev
  · rw [hred false none, if_neg (by simp [ht])]
  · rw [hred false none, if_neg (by simp [ht])]
    show tableRows (removeEvent (clearTable db (tableNameFor ev.title eventId)) eventId)
      (tableNameFor ev.title eventId) = []
    have heq : tableRows (removeEvent (clearTable db (tableNameFor ev.title eventId)) eventId)
        (tableNameFor ev.title eventId) =
        tableRows (clearTable db (tableNameFor ev.title eventId))
          (tableNameFor ev.title eventId) := rfl
    rw [heq]
    exact tableRows_clearTable_same db _ ht
  · rw [hred false none, if_neg (by simp [ht])]
    exact findEvent_removeEvent _ eventId

/-- C5 witness at a one-event, one-registration state. -/
theorem deleteEvent_two_phase_witness :
    ((⟨[⟨"E1", "T"⟩], [("event_t_E1", [⟨"E1", "Ada", "a@x", "qr"⟩])]⟩ : DB)
        |>.events.find? (fun e => e.id == "E1")) = some ⟨"E1", "T"⟩ ∧
    tableExists ⟨[⟨"E1", "T"⟩], [("event_t_E1", [⟨"E1", "Ada", "a@x", "qr"⟩])]⟩
      (tableNameFor "T" "E1") = true ∧
    (deleteEvent ⟨[⟨"E1", "T"⟩], [("event_t_E1", [⟨"E1", "Ada", "a@x", "qr"⟩])]⟩
      "E1" false none).2 = none := by
  have h1 : ((⟨[⟨"E1", "T"⟩], [("event_t_E1", [⟨"E1", "Ada", "a@x", "qr"⟩])]⟩ : DB)
      |>.events.find? (fun e => e.id == "E1")) = some ⟨"E1", "T"⟩ := by decide
  have h2 : tableExists ⟨[⟨"E1", "T"⟩], [("event_t_E1", [⟨"E1", "Ada", "a@x", "qr"⟩])]⟩
      (tableNameFor "T" "E1") = true := by decide
  exact ⟨h1, h2, (deleteEvent_two_phase _ "E1" ⟨"E1", "T"⟩ h1 h2).2.2.1⟩

/-- C6: when the registration row has been persisted but the
notification email fails, the handler does not roll back the stored row
and answers with the distinct success-with-warning body: HTTP 200,
success true, the warning message, and no error — never a silent
success and never a failure. -/
theorem registerEventPOST_email_failure_warning (db : DB) (body : PostBody) (now : String)
    (ev : EventRow)
    (hid : jsFalsyStr body.eventId = false) (hn : jsFalsyStr body.name = false)
    (he : jsFalsyStr body.email = false)
    (hev : findEvent db (body.eventId.getD "") = some ev)
    (hfresh : emailExists db (tableNameFor ev.title (body.eventId.getD ""))
      (body.email.getD "") = false) :
    (registerEventPOST db body now true none false).2.status = 200 ∧
    (registerEventPOST db body now true none false).2.success = some true ∧
    (registerEventPOST db body now true none false).2.warning =
      some "Registration successful, but failed to send confirmation email." ∧
    (registerEventPOST db body now true none false).2.error = none ∧
    emailCount (registerEventPOST db body now true none false).1
      (tableNameFor ev.title (body.eventId.getD "")) (body.email.getD "") = 1 := by
  obtain ⟨hs, herr, hex, hcount⟩ := registerForEvent_fresh db (body.eventId.getD "") ev.title
    ⟨body.name.getD "", body.email.getD "",
      some (generateEventQRCode (body.name.getD "") (body.email.getD "") ev.title
        (body.eventId.getD "") now).encodedMetadata⟩ now hfresh
  unfold registerEventPOST
  rw [if_neg (by simp [hid, hn, he]), hev]
  dsimp only
  rw [if_neg (by decide)]
  rw [hs]
  rw [if_neg (by decide), if_pos (by decide)]
  exact ⟨rfl, rfl, rfl, rfl, hcount⟩

/-- C6 witness at a concrete state and request. -/
theorem registerEventPOST_email_failure_warning_witness :
    jsFalsyStr (some "E1") = false ∧
    findEvent ⟨[⟨"E1", "T"⟩], []⟩ ((some "E1").getD "") = some ⟨"E1", "T"⟩ ∧
    (registerEventPOST ⟨[⟨"E1", "T"⟩], []⟩ ⟨some "E1", some "Ada", some "a@x"⟩
      "t0" true none false).2.success = some true := by
  have h1 : jsFalsyStr (some "E1" : Option String) = false := by decide
  have h2 : jsFalsyStr (some "Ada" : Option String) = false := by decide
  have h3 : jsFalsyStr (some "a@x" : Option String) = false := by decide
  have h4 : findEvent ⟨[⟨"E1", "T"⟩], []⟩ (((some "E1" : Option String)).getD "") =
      some ⟨"E1", "T"⟩ := by decide
  have h5 : emailExists ⟨[⟨"E1", "T"⟩], []⟩
      (tableNameFor (EventRow.mk "E1" "T").title ((some "E1" : Option String).getD ""))
      ((some "a@x" : Option String).getD "") = false := by decide
  exact ⟨h1, h4, (registerEventPOST_email_failure_warning ⟨[⟨"E1", "T"⟩], []⟩
    ⟨some "E1", some "Ada", some "a@x"⟩ "t0" ⟨"E1", "T"⟩ h1 h2 h3 h4 h5).2.1⟩

/-- C7: isUserRegistered answers false with no error when the event
table does not exist (error code 42P01), exactly as for an existing
table holding no row with that email. -/
theorem isUserRegistered_missing_table (db db2 : DB) (eventId eventTitle email : String)
    (hmiss : tableExists db (tableNameFor eventTitle eventId) = false)
    (hhas : tableExists db2 (tableNameFor eventTitle eventId) = true)
    (hempty : ∀ r ∈ tableRows db2 (tableNameFor eventTitle eventId),
      (r.email == email) = false) :
    isUserRegistered db eventId eventTitle email = (false, none) ∧
    isUserRegistered db2 eventId eventTitle email = (false, none) := by
  constructor
  · unfold isUserRegistered
    dsimp only
    rw [if_neg (by simp [hmiss])]
  · unfold isUserRegistered
    dsimp only
    rw [if_pos hhas]
    rw [List.any_eq_false.mpr (fun x hx => by simp [hempty x hx])]

/-- C7 witness: a missing table and an existing empty table answer the
same. -/
theorem isUserRegistered_missing_table_witness :
    tableExists ⟨[], []⟩ (tableNameFor "T" "E1") = false ∧
    tableExists ⟨[], [("event_t_E1", [])]⟩ (tableNameFor "T" "E1") = true ∧
    isUserRegistered ⟨[], []⟩ "E1" "T" "a@x" = (false, none) := by
  have h1 : tableExists ⟨[], []⟩ (tableNameFor "T" "E1") = false := by decide
  have h2 : tableExists ⟨[], [("event_t_E1", [])]⟩ (tableNameFor "T" "E1") = true := by decide
  have h3 : ∀ r ∈ tableRows ⟨[], [("event_t_E1", [])]⟩ (tableNameFor "T" "E1"),
      (r.email == "a@x") = false := by decide
  exact ⟨h1, h2, (isUserRegistered_missing_table ⟨[], []⟩ ⟨[], [("event_t_E1", [])]⟩
    "E1" "T" "a@x" h1 h2 h3).1⟩

/-- C8 counterexample: at a state with no events, a well-formed request
whose eventId resolves to no event is answered with status 500 and the
generic retrieval error, not with the claimed 400. -/
theorem registerEventPOST_unknown_event_500 :
    (registerEventPOST ⟨[], []⟩ ⟨some "E1", some "Ada", some "ada@x.com"⟩ "t" true none
      true).2 = ⟨500, none, none, none, some "Failed to retrieve event details"⟩ ∧
    (registerEventPOST ⟨[], []⟩ ⟨some "E1", some "Ada", some "ada@x.com"⟩ "t" true none
      true).2.status ≠ 400 := by
  exact ⟨rfl, by decide⟩

/-- C8 amended: a request with a falsy (missing or empty) eventId, name
or email is answered 400 with the InvalidInput-class message "Missing
required fields"; a request whose eventId does not resolve to an event
is answered 500 with "Failed to retrieve event details" — not 400. -/
theorem registerEventPOST_validation (db : DB) (body : PostBody) (now : String) (qrOk : Bool)
    (rpcErr : Option String) (emailOk : Bool) :
    ((jsFalsyStr body.eventId = true ∨ jsFalsyStr body.name = true ∨
        jsFalsyStr body.email = true) →
      registerEventPOST db body now qrOk rpcErr emailOk =
        (db, ⟨400, none, none, none, some "Missing required fields"⟩)) ∧
    (jsFalsyStr body.eventId = false → jsFalsyStr body.name = false →
      jsFalsyStr body.email = false → findEvent db (body.eventId.getD "") = none →
      registerEventPOST db body now qrOk rpcErr emailOk =
        (db, ⟨500, none, none, none, some "Failed to retrieve event details"⟩)) := by
  constructor
  · intro h
    unfold registerEventPOST
    rw [if_pos (by rcases h with h | h | h <;> simp [h])]
  · intro h1 h2 h3 h4
    unfold registerEventPOST
    rw [if_neg (by simp [h1, h2, h3]), h4]

/-- C8 amended witness: an empty name yields the 400 response. -/
theorem registerEventPOST_validation_witness :
    jsFalsyStr (some "") = true ∧
    registerEventPOST ⟨[], []⟩ ⟨some "E1", some "", some "a@x"⟩ "t" true none true =
      (⟨[], []⟩, ⟨400, none, none, none, some "Missing required fields"⟩) :=
  ⟨by decide, (registerEventPOST_validation ⟨[], []⟩ ⟨some "E1", some "", some "a@x"⟩
    "t" true none true).1 (Or.inr (Or.inl (by decide)))⟩

/-- C9 counterexample: a metadata object whose name field is present
with the empty string is rejected with the missing-field error, so a
present field is not accepted for any value. -/
theorem validateQRData_present_empty_rejected :
    List.lookup "name" [("name", JVal.str ""), ("email", JVal.str "a"),
      ("event", JVal.str "b"), ("eventId", JVal.str "c")] = some (JVal.str "") ∧
    validateQRData [("name", JVal.str ""), ("email", JVal.str "a"),
      ("event", JVal.str "b"), ("eventId", JVal.str "c")] =
      Except.error "Missing required field: name" := by
  exact ⟨rfl, rfl⟩

/-- C9 amended: validateQRData succeeds exactly when each of name,
email, event and eventId is present with a JS-truthy value (a present
but empty or otherwise falsy field counts as missing), and otherwise
reports the first such field by name. -/
theorem validateQRData_truthiness (data : List (String × JVal)) :
    (validateQRData data = Except.ok data ↔
      ∀ f ∈ requiredFields, ∃ v, data.lookup f = some v ∧ jsTruthy v = true) ∧
    (∀ f, firstMissingField data requiredFields = some f →
      validateQRData data = Except.error ("Missing required field: " ++ f) ∧
      f ∈ requiredFields ∧
      (data.lookup f = none ∨ ∃ v, data.lookup f = some v ∧ jsTruthy v = false)) := by
  constructor
  · rw [← firstMissingField_none_iff data requiredFields]
    unfold validateQRData
    cases hf : firstMissingField data requiredFields with
    | none => simp
    | some g => simp
  · intro f hf
    obtain ⟨hmem, hstat⟩ := firstMissingField_some_spec data requiredFields f hf
    refine ⟨?_, hmem, hstat⟩
    unfold validateQRData
    rw [hf]

/-- C9 amended witness: a fully truthy object validates. -/
theorem validateQRData_truthiness_witness :
    validateQRData [("name", JVal.str "Ada"), ("email", JVal.str "a@x"),
        ("event", JVal.str "T"), ("eventId", JVal.str "E1")] =
      Except.ok [("name", JVal.str "Ada"), ("email", JVal.str "a@x"),
        ("event", JVal.str "T"), ("eventId", JVal.str "E1")] :=
  (validateQRData_truthiness _).1.mpr (by
    intro f hf
    fin_cases hf
    · exact ⟨JVal.str "Ada", rfl, rfl⟩
    · exact ⟨JVal.str "a@x", rfl, rfl⟩
    · exact ⟨JVal.str "T", rfl, rfl⟩
    · exact ⟨JVal.str "E1", rfl, rfl⟩)

/-- C10: generateQRCodeBuffer is total and never surfaces a render
failure: a successful render returns its buffer, a throwing render
returns the fixed fallback constant (indistinguishable by type from a
success), and that constant is the 68-byte 1x1 PNG of the source (PNG
signature, 1x1 IHDR dimensions, color type 4 with an alpha channel). -/
theorem generateQRCodeBuffer_total_fallback :
    (∀ e, generateQRCodeBuffer (Except.error e) = fallbackPNG) ∧
    (∀ buf, generateQRCodeBuffer (Except.ok buf) = buf) ∧
    (∀ e, generateQRCodeBuffer (Except.error e) =
      generateQRCodeBuffer (Except.ok fallbackPNG)) ∧
    fallbackPNG.length = 68 ∧
    fallbackPNG.take 8 = [137, 80, 78, 71, 13, 10, 26, 10] ∧
    (fallbackPNG.drop 16).take 8 = [0, 0, 0, 1, 0, 0, 0, 1] ∧
    (fallbackPNG.drop 24).take 2 = [8, 4] := by
  refine ⟨fun e => rfl, fun buf => rfl, fun e => rfl, ?_, ?_, ?_, ?_⟩
  · rfl
  · rfl
  · rfl
  · rfl
